import Mathlib

/-!
Shallow embedding of the cozy command-line parsing library (src/cozy.hpp).

Strings are modelled as `List Char`.  A `std::string_view` that may carry a
null `data()` pointer (the "probe" value `{}` that the dispatcher feeds to a
binder when no explicit value is present) is modelled as `Option (List Char)`:
`none` is the null-data view, `some t` a real token.

The C++ binders mutate caller-owned destinations through pointers; here each
registry entry carries the current value of its destination, and every
operation returns the updated registry.  The parser's `parse_arg_t* parse_arg`
pointer into `flag_info` is modelled as an optional index into the registry.
The one undefined-behaviour path (dereferencing that pointer while it is null,
at the dispatcher's idle-state attached-value case) is modelled by an outer
`Option`: `parse` returns `none` exactly when the C++ would dereference null.
-/

namespace Cozy

/-- Characters of a string literal. -/
def str (s : String) : List Char := s.data

instance {ε α : Type _} [DecidableEq ε] [DecidableEq α] :
    DecidableEq (Except ε α) := fun
  | Except.error a, Except.error b =>
    if h : a = b then Decidable.isTrue (by rw [h])
    else Decidable.isFalse (fun hc => by cases hc; exact h rfl)
  | Except.error _, Except.ok _ => Decidable.isFalse (fun hc => by cases hc)
  | Except.ok _, Except.error _ => Decidable.isFalse (fun hc => by cases hc)
  | Except.ok a, Except.ok b =>
    if h : a = b then Decidable.isTrue (by rw [h])
    else Decidable.isFalse (fun hc => by cases hc; exact h rfl)

/-- detail::token_kind_t. -/
inductive token_kind_t where
  | literal
  | arg
  | flag
deriving DecidableEq

/-- Index of the first '=' in a token, `none` if absent
(models `std::string_view::find('=')`, with `none` for `npos`). -/
def findEq : List Char → Option Nat
  | [] => none
  | c :: cs => if c = '=' then some 0 else (findEq cs).map (· + 1)

/-- Long-form name extraction: `token.substr(2, equal_pos - 2)`.
When no '=' is present the C++ count is `npos - 2`, i.e. the rest. -/
def stripLong (t : List Char) : Option Nat → List Char
  | none => t.drop 2
  | some p => (t.drop 2).take (p - 2)

/-- Short-form expansion: one single-character token per character from
index 1 up to `min equal_pos token.size`. -/
def shortFlags (t : List Char) (p? : Option Nat) : List (List Char) :=
  let e := match p? with
    | none => t.length
    | some p => min p t.length
  ((t.take e).drop 1).map (fun c => [c])

/-- The attached value, `token.substr(equal_pos + 1)`, when an '=' exists. -/
def attachedOf (t : List Char) : Option Nat → List (List Char)
  | none => []
  | some p => [t.drop (p + 1)]

/-- The tokens and kinds a single non-literal, non-terminator raw argument
expands to (the body of the loop in detail::semantic_tokenize). -/
def tokenizeArg (t : List Char) : List (List Char) × List token_kind_t :=
  let p? := findEq t
  let fs := if t[1]? = some '-' then [stripLong t p?] else shortFlags t p?
  let av := attachedOf t p?
  (fs ++ av,
   fs.map (fun _ => token_kind_t.flag) ++ av.map (fun _ => token_kind_t.arg))

/-- detail::semantic_tokenize. -/
def semantic_tokenize : List (List Char) → List (List Char) × List token_kind_t
  | [] => ([], [])
  | t :: rest =>
    if t.head? ≠ some '-' ∨ t.length < 2 then
      let r := semantic_tokenize rest
      (t :: r.1, token_kind_t.literal :: r.2)
    else if t = str "--" then
      (rest, List.replicate rest.length token_kind_t.literal)
    else
      let one := tokenizeArg t
      let r := semantic_tokenize rest
      (one.1 ++ r.1, one.2 ++ r.2)

/-! ## Value binders (detail::builtin_parse and friends) -/

/-- `std::errc` outcomes `std::from_chars` can report. -/
inductive from_chars_ec where
  | ok
  | invalid_argument
  | result_out_of_range
deriving DecidableEq

/-- Smallest value of the 32-bit signed `int` destination. -/
def intMin : Int := -2147483648

/-- Largest value of the 32-bit signed `int` destination. -/
def intMax : Int := 2147483647

/-- Numeric value of a run of decimal digit characters (the unsigned
accumulation `from_chars` performs over the matched digit pattern). -/
def digitsVal (ds : List Char) : Nat :=
  ds.foldl (fun a c => a * 10 + (c.toNat - '0'.toNat)) 0

/-- Model of `std::from_chars` into a 32-bit signed `int` (the
instantiation the claims exercise): consumes an optional minus sign
followed by the longest nonempty run of decimal digits.  Returns the
error code, the number of characters consumed (where `ptr` ends up) and
the new value of `*target`.  No digits is `invalid_argument` with nothing
consumed; a matched pattern whose value does not fit in `int` consumes the
whole pattern but reports `result_out_of_range` and leaves the value
unmodified; otherwise the parsed value is stored. -/
def fromCharsInt (s : List Char) (target : Int) :
    from_chars_ec × Nat × Int :=
  if s.head? = some '-' then
    let ds := s.tail.takeWhile Char.isDigit
    if ds = [] then (from_chars_ec.invalid_argument, 0, target)
    else if -(digitsVal ds : Int) < intMin then
      (from_chars_ec.result_out_of_range, 1 + ds.length, target)
    else (from_chars_ec.ok, 1 + ds.length, -(digitsVal ds : Int))
  else
    let ds := s.takeWhile Char.isDigit
    if ds = [] then (from_chars_ec.invalid_argument, 0, target)
    else if intMax < (digitsVal ds : Int) then
      (from_chars_ec.result_out_of_range, ds.length, target)
    else (from_chars_ec.ok, ds.length, (digitsVal ds : Int))

/-- Name the integral instantiation reports in error messages
(`typestring::name<int>`). -/
def intName : List Char := str "int"

/-- detail::builtin_parse for an integral destination (modelled at `int`).
Returns the `expected<bool>` result together with the new destination
value: `std::from_chars` stores the parsed value through the pointer
whenever the numeric pattern matched and the value is representable, even
when trailing characters remain; the check `ec != errc() || ptr != end`
only raises the error afterwards. -/
def builtin_parse_int (s : List Char) (target : Int) :
    Except (List Char) Bool × Int :=
  let r := fromCharsInt s target
  if r.1 = from_chars_ec.ok ∧ r.2.1 = s.length then (Except.ok false, r.2.2)
  else
    (Except.error (str "cannot parse " ++ s ++ str " as " ++ intName), r.2.2)

/-- The strict whole-token integer grammar: an optional minus sign followed
by at least one decimal digit and nothing else.  `builtin_parse_int` is
proved to succeed exactly on tokens of this shape whose value fits in
`int`. -/
def wholeIntToken (s : List Char) : Bool :=
  if s.head? = some '-' then !s.tail.isEmpty && s.tail.all Char.isDigit
  else !s.isEmpty && s.all Char.isDigit

/-- The mathematical value of a token satisfying `wholeIntToken`. -/
def intTokenVal (s : List Char) : Int :=
  if s.head? = some '-' then -(digitsVal s.tail : Int) else (digitsVal s : Int)

/-- detail::builtin_parse for a bool destination.  The C++ tests
`s.data() == nullptr || s == "true"`: only the null-data probe view or the
literal "true" set the destination true; an empty token with non-null data
(such as the attached value of `--b=`) falls through to the error case. -/
def builtin_parse_bool (s : Option (List Char)) (target : Bool) :
    Except (List Char) Bool × Bool :=
  if s = none ∨ s = some (str "true") then (Except.ok false, true)
  else if s = some (str "false") then (Except.ok false, false)
  else (Except.error (str "cannot parse " ++ s.getD [] ++ str " as bool"), target)

/-- detail::builtin_parse for a string destination: assigns verbatim. -/
def builtin_parse_str (s : Option (List Char)) :
    Except (List Char) Bool × List Char :=
  (Except.ok false, s.getD [])

/-- detail::builtin_parse_container for a container of strings: a null-data
probe closes without appending (returns false); otherwise the element parse
(for a string element, always successful) appends and reports true. -/
def builtin_parse_container (s : Option (List Char))
    (target : List (List Char)) :
    Except (List Char) Bool × List (List Char) :=
  match s with
  | none => (Except.ok false, target)
  | some t => (Except.ok true, target ++ [t])

/-- parse_arg_t::flag_kind_t (`variable` is a Lean keyword, hence
`variadic`). -/
inductive flag_kind_t where
  | single
  | boolean
  | variadic
deriving DecidableEq

/-- parse_arg_t: the type-erased destination.  The variant alternatives not
exercised by the specification's claims (other integer widths, floating
point, string_view, containers of non-strings) share the behaviour of the
representatives modelled here. -/
inductive parse_arg_t where
  | pBool (b : Bool)
  | pInt (n : Int)
  | pStr (s : List Char)
  | pListStr (xs : List (List Char))
deriving DecidableEq

/-- parse_arg_t::kind(): variant index 0 (`bool*`) is boolean, the last
variant (`parse_handle_t`, used for containers) is variable/variadic,
everything else is single. -/
def parse_arg_t.kind : parse_arg_t → flag_kind_t
  | .pBool _ => .boolean
  | .pListStr _ => .variadic
  | _ => .single

/-- parse_arg_t::operator(): dispatch the token to the destination's
builtin_parse, returning the result and the updated destination. -/
def parse_arg_t.call : parse_arg_t → Option (List Char) →
    Except (List Char) Bool × parse_arg_t
  | .pBool b, s => let r := builtin_parse_bool s b; (r.1, .pBool r.2)
  | .pInt n, s => let r := builtin_parse_int (s.getD []) n; (r.1, .pInt r.2)
  | .pStr _, s => let r := builtin_parse_str s; (r.1, .pStr r.2)
  | .pListStr xs, s => let r := builtin_parse_container s xs; (r.1, .pListStr r.2)

/-! ## Flag registry and registration -/

/-- parser_t::flag_info_t: one registered flag, carrying the current value of
its caller-owned destination. -/
structure flag_info_t where
  name : List Char
  help : List Char
  parse_arg : parse_arg_t
deriving DecidableEq

/-- detail::invalid_name. -/
def invalid_name (name : List Char) : Bool :=
  !(name.head? == some '-') ||
  (decide (2 < name.length) && !(name[1]? == some '-')) ||
  name == str "--" || name == str "-" ||
  name.any (fun c => c == '=' || c == ' ' || c == '\t' || c == '\n')

/-- parser_t::unguarded_vflag: strips the leading marker(s) from the name
and appends the entry to flag_info. -/
def unguarded_vflag (reg : List flag_info_t) (name help : List Char)
    (pa : parse_arg_t) : List flag_info_t :=
  let stored := if name[1]? = some '-' then name.drop 2 else name.drop 1
  reg ++ [⟨stored, help, pa⟩]

/-- parser_t::vflag: the runtime registration entry point.  The C++ throws
`std::runtime_error` on an invalid name; that is modelled as `Except.error`. -/
def vflag (reg : List flag_info_t) (name help : List Char)
    (pa : parse_arg_t) : Except (List Char) (List flag_info_t) :=
  if invalid_name name then Except.error (str "invalid flag name " ++ name)
  else Except.ok (unguarded_vflag reg name help pa)

/-! ## Dispatcher (parser_t::parse) -/

/-- The marker prefix error messages prepend to a stripped name:
`token.size() > 1 ? "--" : "-"`. -/
def dashesFor (t : List Char) : List Char :=
  if 1 < t.length then str "--" else str "-"

/-- The mutable loop state of parser_t::parse: the collected remaining
literals, the registry (holding destination values), the active-binder
pointer (`parse_arg_t* parse_arg`) as an optional registry index, and the
previously processed token (`tb[-1]`, read by end_of_flag's error message). -/
structure parse_state_t where
  remaining : List (List Char)
  reg : List flag_info_t
  active : Option Nat
  prev : List Char
deriving DecidableEq

/-- The `end_of_flag` lambda inside parser_t::parse: closes the flag the
active pointer designates.  A single-arity binder yields the missing-value
error (naming `tb[-1]`); otherwise the binder is probed with the null view
and the pointer is cleared.  (The `get? i = none` arm is unreachable: the
pointer only ever designates an existing entry.) -/
def end_of_flag (st : parse_state_t) (i : Nat) :
    Except (List Char) parse_state_t :=
  match st.reg[i]? with
  | none => Except.ok { st with active := none }
  | some fi =>
    if fi.parse_arg.kind = flag_kind_t.single then
      Except.error (str "missing value after " ++ dashesFor st.prev ++ st.prev)
    else
      match fi.parse_arg.call none with
      | (Except.error e, _) => Except.error e
      | (Except.ok _, pa') =>
        Except.ok { st with reg := st.reg.set i { fi with parse_arg := pa' },
                            active := none }

/-- One iteration of the dispatch loop in parser_t::parse, for one
token/kind pair.  The outer `Option` is `none` exactly on the idle-state
attached-value path, where the C++ dereferences the null `parse_arg`
pointer (its comment `precondition: parse_arg != nullptr`).
`err_unknown` is `constexpr true` in the source, so an unknown flag is an
error. -/
def dispatch_step (st : parse_state_t) (t : List Char) (k : token_kind_t) :
    Option (Except (List Char) parse_state_t) :=
  match k with
  | token_kind_t.literal =>
    match st.active with
    | none =>
      some (Except.ok { st with remaining := st.remaining ++ [t], prev := t })
    | some i =>
      match st.reg[i]? with
      | none => some (Except.ok { st with prev := t })
      | some fi =>
        if fi.parse_arg.kind = flag_kind_t.boolean then
          -- (void)(*parse_arg)({}); the result is discarded
          some (Except.ok
            { st with
              reg := st.reg.set i { fi with parse_arg := (fi.parse_arg.call none).2 },
              active := none,
              remaining := st.remaining ++ [t], prev := t })
        else
          match fi.parse_arg.call (some t) with
          | (Except.error e, _) => some (Except.error e)
          | (Except.ok more, pa') =>
            some (Except.ok
              { st with reg := st.reg.set i { fi with parse_arg := pa' },
                        active := if more then some i else none, prev := t })
  | token_kind_t.arg =>
    match st.active with
    | none => none
    | some i =>
      match st.reg[i]? with
      | none => some (Except.ok { st with prev := t })
      | some fi =>
        match fi.parse_arg.call (some t) with
        | (Except.error e, _) => some (Except.error e)
        | (Except.ok more, pa') =>
          some (Except.ok
            { st with reg := st.reg.set i { fi with parse_arg := pa' },
                      active := if more then some i else none, prev := t })
  | token_kind_t.flag =>
    let closed : Except (List Char) parse_state_t :=
      match st.active with
      | none => Except.ok st
      | some i => end_of_flag st i
    match closed with
    | Except.error e => some (Except.error e)
    | Except.ok st' =>
      match st'.reg.findIdx? (fun fi => fi.name == t) with
      | none => some (Except.error (str "unknown flag " ++ dashesFor t ++ t))
      | some j => some (Except.ok { st' with active := some j, prev := t })

/-- The dispatch loop of parser_t::parse over the token/kind sequence. -/
def run_tokens (st : parse_state_t) :
    List (List Char × token_kind_t) → Option (Except (List Char) parse_state_t)
  | [] => some (Except.ok st)
  | (t, k) :: rest =>
    match dispatch_step st t k with
    | none => none
    | some (Except.error e) => some (Except.error e)
    | some (Except.ok st') => run_tokens st' rest

/-- The state parser_t::parse starts from. -/
def init_state (reg : List flag_info_t) : parse_state_t :=
  { remaining := [], reg := reg, active := none, prev := [] }

/-- parser_t::parse: tokenize, run the dispatch loop, close a still-open
flag at end of stream, and return the remaining literals together with the
final destination values.  `none` models the undefined behaviour of
dereferencing the null active-binder pointer. -/
def parse (reg : List flag_info_t) (args : List (List Char)) :
    Option (Except (List Char) (List (List Char) × List flag_info_t)) :=
  let tk := semantic_tokenize args
  match run_tokens (init_state reg) (tk.1.zip tk.2) with
  | none => none
  | some (Except.error e) => some (Except.error e)
  | some (Except.ok st) =>
    match st.active with
    | none => some (Except.ok (st.remaining, st.reg))
    | some i =>
      match end_of_flag st i with
      | Except.error e => some (Except.error e)
      | Except.ok st' => some (Except.ok (st'.remaining, st'.reg))

/-! ## Helper lemmas -/

theorem set_self_of_getElem? {α : Type _} :
    ∀ (l : List α) (i : Nat) (a : α), l[i]? = some a → l.set i a = l
  | [], i, a, h => by simp at h
  | x :: xs, 0, a, h => by
    simp at h
    simp [h]
  | x :: xs, i + 1, a, h => by
    simp at h
    simp [List.set, set_self_of_getElem? xs i a h]

theorem findEq_eq_none_iff : ∀ t : List Char, findEq t = none ↔ '=' ∉ t
  | [] => by simp [findEq]
  | c :: cs => by
    by_cases hc : c = '='
    · subst hc; simp [findEq]
    · simp [findEq, hc, Ne.symm hc, findEq_eq_none_iff cs]

theorem findEq_some : ∀ (t : List Char) (p : Nat), findEq t = some p →
    p = (t.takeWhile (· != '=')).length ∧ p < t.length ∧
    t.take p = t.takeWhile (· != '=') ∧
    t.drop (p + 1) = (t.dropWhile (· != '=')).tail
  | [], p, h => by simp [findEq] at h
  | c :: cs, p, h => by
    by_cases hc : c = '='
    · subst hc
      simp [findEq] at h
      subst h
      simp [List.takeWhile, List.dropWhile]
    · have hb : (c != '=') = true := by simp [hc]
      simp [findEq, hc, Option.map_eq_some'] at h
      obtain ⟨q, hq, hp⟩ := h
      subst hp
      obtain ⟨h1, h2, h3, h4⟩ := findEq_some cs q hq
      refine ⟨?_, ?_, ?_, ?_⟩
      · simp [List.takeWhile, hb, h1]
      · simpa using h2
      · simp [List.takeWhile, hb, List.take_succ_cons, h3]
      · simp [List.dropWhile, hb, h4]

/-! ## Claim C1 -/

/-- Claim C1 (code-bug exhibit).  The claim states that the tokenizer never
emits an attached-value token that is not immediately preceded by a flag
token, making the dispatcher's idle-state attached-value case unreachable.
The raw argument `-=v` refutes this: it is short form with `=` at index 1,
so the per-character loop runs over the empty range and emits no flag token,
yet the attached value `v` is still emitted.  The dispatch loop then reaches
the idle-state attached-value case and dereferences the null active-binder
pointer (`none` in the model), violating the code's own
`precondition: parse_arg != nullptr`. -/
theorem C1_idle_attached_value_reachable :
    semantic_tokenize [str "-=v"] = ([str "v"], [token_kind_t.arg]) ∧
    parse [] [str "-=v"] = none := by decide

/-! ## Claim C2 -/

/-- Claim C2 counterexample.  Registering `-v` in a parser that already has
a flag named `v` does not fail and does not leave the registry unchanged:
vflag only validates the name and appends a second entry with the same
name. -/
theorem C2_duplicate_not_rejected :
    vflag [⟨str "v", str "h", parse_arg_t.pBool false⟩]
        (str "-v") (str "h") (parse_arg_t.pBool false) =
      Except.ok [⟨str "v", str "h", parse_arg_t.pBool false⟩,
                 ⟨str "v", str "h", parse_arg_t.pBool false⟩] := by decide

/-- Claim C2 amended: registration performs no duplicate-name check.  Any
validly named flag — including one whose name is already registered — is
accepted and appended as a further entry, and parse-time lookup resolves a
duplicated name to the first registered entry (here the bool entry is bound
and the later int entry under the same name is untouched). -/
theorem C2_amended_duplicate_appended :
    (∀ (reg : List flag_info_t) (name help : List Char) (pa : parse_arg_t),
      invalid_name name = false →
      vflag reg name help pa = Except.ok (unguarded_vflag reg name help pa) ∧
      (unguarded_vflag reg name help pa).length = reg.length + 1) ∧
    parse [⟨str "v", [], parse_arg_t.pBool false⟩,
           ⟨str "v", [], parse_arg_t.pInt 0⟩] [str "-v"] =
      some (Except.ok ([], [⟨str "v", [], parse_arg_t.pBool true⟩,
                            ⟨str "v", [], parse_arg_t.pInt 0⟩])) := by
  constructor
  · intro reg name help pa h
    simp [vflag, h, unguarded_vflag]
  · decide

/-- Witness for C2_amended_duplicate_appended. -/
theorem C2_amended_duplicate_appended_witness :
    vflag [] (str "-v") [] (parse_arg_t.pBool false) =
      Except.ok (unguarded_vflag [] (str "-v") [] (parse_arg_t.pBool false)) ∧
    (unguarded_vflag [] (str "-v") [] (parse_arg_t.pBool false)).length = 0 + 1 :=
  C2_amended_duplicate_appended.1 [] (str "-v") [] (parse_arg_t.pBool false)
    (by decide)

/-! ## Claim C3 -/

/-- Claim C3 counterexample.  With a container-destination flag `tag`, the
attached form `--tag=a` does not close the flag: the following literal `b`
is consumed as a further container element, so the result has no remaining
literals and the container holds both `a` and `b` (the claim demanded
remaining `[b]` and container `[a]`). -/
theorem C3_attached_leaves_container_open :
    parse [⟨str "tag", [], parse_arg_t.pListStr []⟩] [str "--tag=a", str "b"] =
      some (Except.ok
        ([], [⟨str "tag", [], parse_arg_t.pListStr [str "a", str "b"]⟩])) := by
  decide

/-- Claim C3 amended: binding an attached value to a multi-valued
(container) flag reports consumes-more, so the dispatcher keeps the flag
open rather than returning to idle; an immediately following literal is
bound as a further container element instead of being appended to the
remaining literals.  The first conjunct states the dispatcher step for an
attached-value token on an open container flag; the second is the concrete
`--tag=a b` run. -/
theorem C3_amended_attached_keeps_container_open :
    (∀ (st : parse_state_t) (i : Nat) (fi : flag_info_t)
       (xs : List (List Char)) (t : List Char),
      st.active = some i → st.reg[i]? = some fi →
      fi.parse_arg = parse_arg_t.pListStr xs →
      dispatch_step st t token_kind_t.arg =
        some (Except.ok
          { st with
            reg := st.reg.set i
              { fi with parse_arg := parse_arg_t.pListStr (xs ++ [t]) },
            active := some i, prev := t })) ∧
    parse [⟨str "tag", [], parse_arg_t.pListStr []⟩] [str "--tag=a", str "b"] =
      some (Except.ok
        ([], [⟨str "tag", [], parse_arg_t.pListStr [str "a", str "b"]⟩])) := by
  constructor
  · intro st i fi xs t h1 h2 h3
    simp [dispatch_step, h1, h2, h3, parse_arg_t.call, builtin_parse_container]
  · decide

/-- Witness for C3_amended_attached_keeps_container_open. -/
theorem C3_amended_attached_keeps_container_open_witness :
    dispatch_step ⟨[], [⟨str "tag", [], parse_arg_t.pListStr []⟩], some 0, str "tag"⟩
        (str "a") token_kind_t.arg =
      some (Except.ok
        { (⟨[], [⟨str "tag", [], parse_arg_t.pListStr []⟩], some 0, str "tag"⟩ : parse_state_t) with
          reg := [⟨str "tag", [], parse_arg_t.pListStr []⟩].set 0
            { (⟨str "tag", [], parse_arg_t.pListStr []⟩ : flag_info_t) with
              parse_arg := parse_arg_t.pListStr ([] ++ [str "a"]) },
          active := some 0, prev := str "a" }) :=
  C3_amended_attached_keeps_container_open.1
    ⟨[], [⟨str "tag", [], parse_arg_t.pListStr []⟩], some 0, str "tag"⟩ 0
    ⟨str "tag", [], parse_arg_t.pListStr []⟩ [] (str "a") rfl rfl rfl

theorem all_iff_takeWhile_length (p : Char → Bool) (l : List Char) :
    (l.takeWhile p).length = l.length ↔ l.all p = true := by
  rw [List.all_eq_true]
  constructor
  · intro h
    exact List.takeWhile_eq_self_iff.mp ((List.takeWhile_prefix p).eq_of_length h)
  · intro h
    rw [List.takeWhile_eq_self_iff.mpr h]

theorem takeWhile_digits_full (l : List Char) :
    (¬l.takeWhile Char.isDigit = [] ∧ (l.takeWhile Char.isDigit).length = l.length)
      ↔ (l.isEmpty = false ∧ l.all Char.isDigit = true) := by
  by_cases hd : l.takeWhile Char.isDigit = []
  · simp only [hd, not_true, false_and, false_iff, not_and]
    intro hne
    rcases l with _ | ⟨c, cs⟩
    · simp at hne
    · have hpc : Char.isDigit c = false := by
        by_cases hp : Char.isDigit c
        · rw [List.takeWhile_cons_of_pos hp] at hd
          simp at hd
        · simpa using hp
      simp [hpc]
  · constructor
    · intro h
      have hall := (all_iff_takeWhile_length Char.isDigit l).mp h.2
      have hne : l.isEmpty = false := by
        rcases l with _ | _
        · simp at hd
        · rfl
      exact ⟨hne, hall⟩
    · intro h
      exact ⟨hd, (all_iff_takeWhile_length Char.isDigit l).mpr h.2⟩

theorem fromCharsInt_ok_full_iff (l : List Char) (n : Int) :
    ((fromCharsInt l n).1 = from_chars_ec.ok ∧
      (fromCharsInt l n).2.1 = l.length) ↔
      (wholeIntToken l = true ∧ intMin ≤ intTokenVal l ∧
       intTokenVal l ≤ intMax) := by
  by_cases hm : l.head? = some '-'
  · obtain ⟨cs, rfl⟩ : ∃ cs, l = '-' :: cs := by
      rcases l with _ | ⟨c, cs⟩
      · simp at hm
      · simp only [List.head?_cons, Option.some.injEq] at hm
        exact ⟨cs, by rw [hm]⟩
    have e1 : fromCharsInt ('-' :: cs) n =
        (if cs.takeWhile Char.isDigit = [] then
          (from_chars_ec.invalid_argument, 0, n)
        else if -(digitsVal (cs.takeWhile Char.isDigit) : Int) < intMin then
          (from_chars_ec.result_out_of_range,
           1 + (cs.takeWhile Char.isDigit).length, n)
        else
          (from_chars_ec.ok, 1 + (cs.takeWhile Char.isDigit).length,
           -(digitsVal (cs.takeWhile Char.isDigit) : Int))) := by
      simp [fromCharsInt]
    have e2 : wholeIntToken ('-' :: cs) =
        (!cs.isEmpty && cs.all Char.isDigit) := by
      simp [wholeIntToken]
    have e3 : intTokenVal ('-' :: cs) = -(digitsVal cs : Int) := by
      simp [intTokenVal]
    rw [e1, e2, e3, Bool.and_eq_true, Bool.not_eq_true']
    by_cases hd : cs.takeWhile Char.isDigit = []
    · rw [if_pos hd]
      constructor
      · rintro ⟨h1, -⟩
        exact absurd h1 (by simp)
      · rintro ⟨⟨hne, hall⟩, -, -⟩
        exact absurd hd ((takeWhile_digits_full cs).mpr ⟨hne, hall⟩).1
    · by_cases hr : -(digitsVal (cs.takeWhile Char.isDigit) : Int) < intMin
      · rw [if_neg hd, if_pos hr]
        constructor
        · rintro ⟨h1, -⟩
          exact absurd h1 (by simp)
        · rintro ⟨⟨hne, hall⟩, hlo, -⟩
          have hds : cs.takeWhile Char.isDigit = cs :=
            List.takeWhile_eq_self_iff.mpr (List.all_eq_true.mp hall)
          rw [hds] at hr
          exact absurd hlo (not_le.mpr hr)
      · rw [if_neg hd, if_neg hr]
        constructor
        · rintro ⟨-, h2⟩
          have h2a : 1 + (cs.takeWhile Char.isDigit).length =
              ('-' :: cs).length := h2
          simp only [List.length_cons] at h2a
          have hfull := (takeWhile_digits_full cs).mp ⟨hd, by omega⟩
          have hds : cs.takeWhile Char.isDigit = cs :=
            List.takeWhile_eq_self_iff.mpr (List.all_eq_true.mp hfull.2)
          rw [hds] at hr
          refine ⟨hfull, not_lt.mp hr, ?_⟩
          simp only [intMax]
          omega
        · rintro ⟨⟨hne, hall⟩, -, -⟩
          have h2 := ((takeWhile_digits_full cs).mpr ⟨hne, hall⟩).2
          refine ⟨rfl, ?_⟩
          show 1 + (cs.takeWhile Char.isDigit).length = ('-' :: cs).length
          simp only [List.length_cons]
          omega
  · have e1 : fromCharsInt l n =
        (if l.takeWhile Char.isDigit = [] then
          (from_chars_ec.invalid_argument, 0, n)
        else if intMax < (digitsVal (l.takeWhile Char.isDigit) : Int) then
          (from_chars_ec.result_out_of_range,
           (l.takeWhile Char.isDigit).length, n)
        else
          (from_chars_ec.ok, (l.takeWhile Char.isDigit).length,
           (digitsVal (l.takeWhile Char.isDigit) : Int))) := by
      simp [fromCharsInt, hm]
    have e2 : wholeIntToken l = (!l.isEmpty && l.all Char.isDigit) := by
      simp [wholeIntToken, hm]
    have e3 : intTokenVal l = (digitsVal l : Int) := by
      simp [intTokenVal, hm]
    rw [e1, e2, e3, Bool.and_eq_true, Bool.not_eq_true']
    by_cases hd : l.takeWhile Char.isDigit = []
    · rw [if_pos hd]
      constructor
      · rintro ⟨h1, -⟩
        exact absurd h1 (by simp)
      · rintro ⟨⟨hne, hall⟩, -, -⟩
        exact absurd hd ((takeWhile_digits_full l).mpr ⟨hne, hall⟩).1
    · by_cases hr : intMax < (digitsVal (l.takeWhile Char.isDigit) : Int)
      · rw [if_neg hd, if_pos hr]
        constructor
        · rintro ⟨h1, -⟩
          exact absurd h1 (by simp)
        · rintro ⟨⟨hne, hall⟩, -, hhi⟩
          have hds : l.takeWhile Char.isDigit = l :=
            List.takeWhile_eq_self_iff.mpr (List.all_eq_true.mp hall)
          rw [hds] at hr
          exact absurd hhi (not_le.mpr hr)
      · rw [if_neg hd, if_neg hr]
        constructor
        · rintro ⟨-, h2⟩
          have hfull := (takeWhile_digits_full l).mp ⟨hd, h2⟩
          have hds : l.takeWhile Char.isDigit = l :=
            List.takeWhile_eq_self_iff.mpr (List.all_eq_true.mp hfull.2)
          rw [hds] at hr
          refine ⟨hfull, ?_, not_lt.mp hr⟩
          simp only [intMin]
          omega
        · rintro ⟨⟨hne, hall⟩, -, -⟩
          exact ⟨rfl, ((takeWhile_digits_full l).mpr ⟨hne, hall⟩).2⟩

/-! ## Claim C4 -/

/-- Claim C4 counterexample.  The claim states that a bool binder sets true
on the empty-string token, so `--b=` sets the destination true.  The code
tests `s.data() == nullptr`, not emptiness: the attached value of `--b=` is
an empty view with a non-null pointer, so it falls through to the
InvalidValue error and the whole parse fails. -/
theorem C4_empty_attached_value_rejected :
    builtin_parse_bool (some []) false =
      (Except.error (str "cannot parse  as bool"), false) ∧
    parse [⟨str "b", [], parse_arg_t.pBool false⟩] [str "--b="] =
      some (Except.error (str "cannot parse  as bool")) := by decide

/-- Claim C4 amended: the bool binder sets the destination true exactly when
the supplied view is the null-data probe (`none`, used when no explicit value
follows) or the literal `true`; it sets false exactly on the literal `false`;
every other view — including the empty-but-non-null attached value of
`--b=` — yields InvalidValue and leaves the destination unchanged. -/
theorem C4_amended_bool_null_probe_semantics :
    (∀ (s : Option (List Char)) (target : Bool),
      (builtin_parse_bool s target = (Except.ok false, true) ↔
        s = none ∨ s = some (str "true")) ∧
      (builtin_parse_bool s target = (Except.ok false, false) ↔
        s = some (str "false")) ∧
      (¬(s = none ∨ s = some (str "true") ∨ s = some (str "false")) →
        builtin_parse_bool s target =
          (Except.error (str "cannot parse " ++ s.getD [] ++ str " as bool"),
           target))) ∧
    parse [⟨str "b", [], parse_arg_t.pBool false⟩] [str "--b="] =
      some (Except.error (str "cannot parse  as bool")) := by
  constructor
  · intro s target
    rcases s with _ | t
    · simp [builtin_parse_bool]
    · by_cases h1 : t = str "true"
      · subst h1
        refine ⟨by simp [builtin_parse_bool], ?_, ?_⟩
        · simp [builtin_parse_bool]
          decide
        · intro h
          exact absurd (Or.inr (Or.inl rfl)) h
      · by_cases h2 : t = str "false"
        · subst h2
          refine ⟨?_, by simp [builtin_parse_bool]; decide, ?_⟩
          · simp [builtin_parse_bool]
          · intro h
            exact absurd (Or.inr (Or.inr rfl)) h
        · simp [builtin_parse_bool, h1, h2]
  · decide

/-- Witness for C4_amended_bool_null_probe_semantics. -/
theorem C4_amended_bool_null_probe_semantics_witness :
    builtin_parse_bool (some (str "x")) false =
      (Except.error (str "cannot parse " ++ (some (str "x")).getD [] ++
        str " as bool"), false) :=
  ((C4_amended_bool_null_probe_semantics.1 (some (str "x")) false).2.2 (by decide))

/-! ## Claim C8 -/

/-- Claim C8 counterexample.  Two parts of the claim fail on the code.
Destination mutation: for `5x` the in-range numeric pattern `5` matches, so
`std::from_chars` stores 5 through the destination pointer before the
whole-token check fails — the bind reports InvalidValue, yet the
destination has changed from 0 to 5.  Whole-token consumption is not
sufficient for success: for `2147483648` the conversion consumes the entire
token (`ptr == end`), yet it reports `result_out_of_range` for `int` and
the bind fails (with the destination untouched). -/
theorem C8_failed_bind_mutates_destination :
    (builtin_parse_int (str "5x") 0 =
      (Except.error (str "cannot parse 5x as int"), 5)) ∧
    ((fromCharsInt (str "2147483648") 0).2.1 = (str "2147483648").length ∧
     builtin_parse_int (str "2147483648") 0 =
       (Except.error (str "cannot parse 2147483648 as int"), 0)) := by decide

/-- Claim C8 amended: an integer bind succeeds exactly when the whole token
matches the strict integer grammar (optional minus sign, then only digits,
at least one) and its value is representable in the destination type (for
`int`: within [-2147483648, 2147483647]) — leading or trailing garbage is
rejected, not truncated — and `--count=5` sets the destination to 5 with no
literals while `--count=5x` fails with InvalidValue carrying the token and
type.  However, on such a failure the destination is not left unchanged
when the token has an in-range numeric prefix: from_chars has already
stored the prefix value (an invalid or out-of-range token leaves the
destination unchanged, as the boundary conjuncts show). -/
theorem C8_amended_strict_whole_token :
    (∀ (s : List Char) (n : Int),
      ((builtin_parse_int s n).1 = Except.ok false ↔
        (wholeIntToken s = true ∧ intMin ≤ intTokenVal s ∧
         intTokenVal s ≤ intMax))) ∧
    parse [⟨str "count", [], parse_arg_t.pInt 0⟩] [str "--count=5"] =
      some (Except.ok ([], [⟨str "count", [], parse_arg_t.pInt 5⟩])) ∧
    parse [⟨str "count", [], parse_arg_t.pInt 0⟩] [str "--count=5x"] =
      some (Except.error (str "cannot parse 5x as int")) ∧
    builtin_parse_int (str "5x") 0 =
      (Except.error (str "cannot parse 5x as int"), 5) ∧
    builtin_parse_int (str "2147483648") 0 =
      (Except.error (str "cannot parse 2147483648 as int"), 0) ∧
    builtin_parse_int (str "2147483647") 0 =
      (Except.ok false, 2147483647) := by
  refine ⟨?_, by decide, by decide, by decide, by decide, by decide⟩
  intro s n
  have key : (builtin_parse_int s n).1 = Except.ok false ↔
      ((fromCharsInt s n).1 = from_chars_ec.ok ∧
       (fromCharsInt s n).2.1 = s.length) := by
    simp only [builtin_parse_int]
    split_ifs with h
    · simpa using h
    · simpa using h
  rw [key, fromCharsInt_ok_full_iff]

/-! ## Claim C5 -/

/-- Claim C5: the first raw argument equal to `--` ends flag recognition:
every later raw argument — including one spelled `--` again or one beginning
with the marker — is appended verbatim as a literal token in original order,
and the `--` token itself is not emitted. -/
theorem C5_terminator_ends_recognition (xs ys : List (List Char))
    (h : str "--" ∉ xs) :
    semantic_tokenize (xs ++ str "--" :: ys) =
      ((semantic_tokenize xs).1 ++ ys,
       (semantic_tokenize xs).2 ++
         List.replicate ys.length token_kind_t.literal) := by
  induction xs with
  | nil =>
    simp [semantic_tokenize, str]
  | cons t xs ih =>
    have ht : t ≠ str "--" := fun hc => h (hc ▸ List.mem_cons_self t xs)
    have h' : str "--" ∉ xs := fun hm => h (List.mem_cons_of_mem t hm)
    by_cases hlit : t.head? ≠ some '-' ∨ t.length < 2
    · simp only [List.cons_append, semantic_tokenize, if_pos hlit,
        List.append_eq]
      rw [ih h']
    · simp only [List.cons_append, semantic_tokenize, if_neg hlit, if_neg ht,
        List.append_eq]
      rw [ih h']
      simp

/-- Witness for C5_terminator_ends_recognition. -/
theorem C5_terminator_ends_recognition_witness :
    semantic_tokenize ([str "a"] ++ str "--" :: [str "--", str "-b"]) =
      ((semantic_tokenize [str "a"]).1 ++ [str "--", str "-b"],
       (semantic_tokenize [str "a"]).2 ++
         List.replicate ([str "--", str "-b"] : List (List Char)).length
           token_kind_t.literal) :=
  C5_terminator_ends_recognition [str "a"] [str "--", str "-b"] (by decide)

/-! ## Claim C9 -/

/-- Claim C9: a literal arriving while a boolean flag is awaiting a value is
never consumed as that flag's value: the dispatcher probe-binds the bool
with the null view (setting the destination true), closes the flag, and
appends the literal to the remaining literals; concretely `--verbose extra`
sets verbose true and returns `extra` as the only literal. -/
theorem C9_boolean_never_consumes_literal :
    (∀ (st : parse_state_t) (i : Nat) (fi : flag_info_t) (b : Bool)
       (t : List Char),
      st.active = some i → st.reg[i]? = some fi →
      fi.parse_arg = parse_arg_t.pBool b →
      dispatch_step st t token_kind_t.literal =
        some (Except.ok
          { st with
            reg := st.reg.set i { fi with parse_arg := parse_arg_t.pBool true },
            active := none,
            remaining := st.remaining ++ [t], prev := t })) ∧
    parse [⟨str "verbose", [], parse_arg_t.pBool false⟩]
        [str "--verbose", str "extra"] =
      some (Except.ok ([str "extra"],
        [⟨str "verbose", [], parse_arg_t.pBool true⟩])) := by
  constructor
  · intro st i fi b t h1 h2 h3
    simp [dispatch_step, h1, h2, h3, parse_arg_t.kind, parse_arg_t.call,
      builtin_parse_bool]
  · decide

/-- Witness for C9_boolean_never_consumes_literal. -/
theorem C9_boolean_never_consumes_literal_witness :
    dispatch_step
        ⟨[], [⟨str "verbose", [], parse_arg_t.pBool false⟩], some 0, str "verbose"⟩
        (str "extra") token_kind_t.literal =
      some (Except.ok
        { (⟨[], [⟨str "verbose", [], parse_arg_t.pBool false⟩], some 0,
            str "verbose"⟩ : parse_state_t) with
          reg := [⟨str "verbose", [], parse_arg_t.pBool false⟩].set 0
            { (⟨str "verbose", [], parse_arg_t.pBool false⟩ : flag_info_t) with
              parse_arg := parse_arg_t.pBool true },
          active := none,
          remaining := [] ++ [str "extra"], prev := str "extra" }) :=
  C9_boolean_never_consumes_literal.1
    ⟨[], [⟨str "verbose", [], parse_arg_t.pBool false⟩], some 0, str "verbose"⟩
    0 ⟨str "verbose", [], parse_arg_t.pBool false⟩ false (str "extra")
    rfl rfl rfl

/-! ## Claim C7 -/

/-- Claim C7: when the token stream ends while a flag is still awaiting a
value, the flag is closed by arity: a single-scalar binder yields the
missing-value error naming the previous token (the flag), a boolean binder
is probe-bound with the null view (destination set true) and the parse
succeeds, and a multi-valued binder is closed successfully without appending
an element.  The concrete conjuncts run `--count` (MissingValue naming the
flag), `--verbose` (true) and `--tag` (container unchanged). -/
theorem C7_end_of_stream_closing :
    (∀ (reg : List flag_info_t) (args : List (List Char))
       (st : parse_state_t) (i : Nat) (fi : flag_info_t),
      run_tokens (init_state reg)
          ((semantic_tokenize args).1.zip (semantic_tokenize args).2) =
        some (Except.ok st) →
      st.active = some i → st.reg[i]? = some fi →
      ((fi.parse_arg.kind = flag_kind_t.single →
        parse reg args =
          some (Except.error
            (str "missing value after " ++ dashesFor st.prev ++ st.prev))) ∧
       (∀ b, fi.parse_arg = parse_arg_t.pBool b →
        parse reg args =
          some (Except.ok (st.remaining,
            st.reg.set i { fi with parse_arg := parse_arg_t.pBool true }))) ∧
       (∀ xs, fi.parse_arg = parse_arg_t.pListStr xs →
        parse reg args = some (Except.ok (st.remaining, st.reg))))) ∧
    parse [⟨str "count", [], parse_arg_t.pInt 0⟩] [str "--count"] =
      some (Except.error (str "missing value after --count")) ∧
    parse [⟨str "verbose", [], parse_arg_t.pBool false⟩] [str "--verbose"] =
      some (Except.ok ([], [⟨str "verbose", [], parse_arg_t.pBool true⟩])) ∧
    parse [⟨str "tag", [], parse_arg_t.pListStr [str "x"]⟩] [str "--tag"] =
      some (Except.ok ([], [⟨str "tag", [], parse_arg_t.pListStr [str "x"]⟩])) := by
  refine ⟨?_, by decide, by decide, by decide⟩
  intro reg args st i fi hrun hact hget
  refine ⟨?_, ?_, ?_⟩
  · intro hk
    simp [parse, hrun, hact, end_of_flag, hget, hk]
  · intro b hb
    simp [parse, hrun, hact, end_of_flag, hget, hb, parse_arg_t.kind,
      parse_arg_t.call, builtin_parse_bool]
  · intro xs hxs
    have hfi : { fi with parse_arg := parse_arg_t.pListStr xs } = fi := by
      cases fi
      simp_all
    have hset := set_self_of_getElem? st.reg i fi hget
    simp [parse, hrun, hact, end_of_flag, hget, hxs, parse_arg_t.kind,
      parse_arg_t.call, builtin_parse_container, hfi, hset]

/-- Witness for C7_end_of_stream_closing. -/
theorem C7_end_of_stream_closing_witness :
    parse [⟨str "count", [], parse_arg_t.pInt 0⟩] [str "--count"] =
      some (Except.error (str "missing value after " ++
        dashesFor (str "count") ++ str "count")) :=
  ((C7_end_of_stream_closing.1 [⟨str "count", [], parse_arg_t.pInt 0⟩]
      [str "--count"]
      ⟨[], [⟨str "count", [], parse_arg_t.pInt 0⟩], some 0, str "count"⟩ 0
      ⟨str "count", [], parse_arg_t.pInt 0⟩ (by decide) rfl rfl).1 (by decide))

/-! ## Claim C6 -/

theorem map_comp_const_replicate {α β γ : Type _} (f : α → β) (k : γ) :
    ∀ l : List α, l.map ((fun _ => k) ∘ f) = List.replicate l.length k
  | [] => rfl
  | x :: xs => by
    simp only [List.map_cons, List.length_cons, List.replicate_succ,
      Function.comp_apply]
    rw [map_comp_const_replicate f k xs]

/-- Claim C6: a short-form raw argument (one marker, length at least 2, the
second character not a marker) expands into one single-character flag token
per character strictly between the marker and the first `=` (or the end of
the token), in left-to-right order; when an `=` is present, exactly one
attached-value token holding the text after the `=` follows those flag
tokens; and parsing `-abc` with registered boolean flags `a`, `b`, `c` sets
all three destinations true and returns no literals. -/
theorem C6_short_form_expansion :
    (∀ (c : Char) (cs : List Char), c ≠ '-' → '=' ∉ c :: cs →
      semantic_tokenize ['-' :: c :: cs] =
        ((c :: cs).map (fun ch => [ch]),
         List.replicate (c :: cs).length token_kind_t.flag)) ∧
    (∀ (c : Char) (cs : List Char), c ≠ '-' → '=' ∈ c :: cs →
      semantic_tokenize ['-' :: c :: cs] =
        (((c :: cs).takeWhile (· != '=')).map (fun ch => [ch]) ++
           [((c :: cs).dropWhile (· != '=')).tail],
         List.replicate ((c :: cs).takeWhile (· != '=')).length
             token_kind_t.flag ++ [token_kind_t.arg])) ∧
    parse [⟨['a'], [], parse_arg_t.pBool false⟩,
           ⟨['b'], [], parse_arg_t.pBool false⟩,
           ⟨['c'], [], parse_arg_t.pBool false⟩] [str "-abc"] =
      some (Except.ok ([],
        [⟨['a'], [], parse_arg_t.pBool true⟩,
         ⟨['b'], [], parse_arg_t.pBool true⟩,
         ⟨['c'], [], parse_arg_t.pBool true⟩])) := by
  refine ⟨?_, ?_, by decide⟩
  · intro c cs hc he
    have hcond : ¬(('-' :: c :: cs).head? ≠ some '-' ∨
        ('-' :: c :: cs).length < 2) := by
      simp
    have ht : ('-' :: c :: cs) ≠ str "--" := by
      intro hcontra
      simp [str] at hcontra
      exact hc hcontra.1
    have hfind : findEq ('-' :: c :: cs) = none := by
      rw [findEq_eq_none_iff]
      intro hm
      rcases List.mem_cons.mp hm with h1 | h2
      · exact absurd h1 (by decide)
      · exact he h2
    have h1 : ('-' :: c :: cs)[1]? = some c := by simp
    have hsf : shortFlags ('-' :: c :: cs) none =
        (c :: cs).map (fun ch => [ch]) := by
      simp only [shortFlags]
      rw [List.take_length]
      rfl
    have htok : tokenizeArg ('-' :: c :: cs) =
        ((c :: cs).map (fun ch => [ch]),
         List.replicate (c :: cs).length token_kind_t.flag) := by
      simp only [tokenizeArg, hfind, h1]
      rw [if_neg (by simp [hc])]
      rw [hsf]
      simp [attachedOf, List.map_map, map_comp_const_replicate,
        List.replicate_succ]
    simp only [semantic_tokenize, if_neg hcond, if_neg ht]
    rw [htok]
    simp
  · intro c cs hc he
    have hcond : ¬(('-' :: c :: cs).head? ≠ some '-' ∨
        ('-' :: c :: cs).length < 2) := by
      simp
    have ht : ('-' :: c :: cs) ≠ str "--" := by
      intro hcontra
      simp [str] at hcontra
      exact hc hcontra.1
    obtain ⟨q, hq⟩ : ∃ q, findEq (c :: cs) = some q := by
      rcases hopt : findEq (c :: cs) with _ | q
      · rw [findEq_eq_none_iff] at hopt
        exact absurd he hopt
      · exact ⟨q, rfl⟩
    obtain ⟨hlen, hlt, htake, hdrop⟩ := findEq_some (c :: cs) q hq
    have hp : findEq ('-' :: c :: cs) = some (q + 1) := by
      have hstep : findEq ('-' :: c :: cs) = (findEq (c :: cs)).map (· + 1) := by
        simp only [findEq]
        rw [if_neg (by decide : ¬('-' = '='))]
      rw [hstep, hq]
      rfl
    have h1 : ('-' :: c :: cs)[1]? = some c := by simp
    have hmin : min (q + 1) ('-' :: c :: cs).length = q + 1 := by
      simp only [List.length_cons] at hlt ⊢
      omega
    have hsf : shortFlags ('-' :: c :: cs) (some (q + 1)) =
        ((c :: cs).takeWhile (· != '=')).map (fun ch => [ch]) := by
      simp only [shortFlags]
      rw [hmin, List.take_succ_cons]
      rw [List.drop_succ_cons, List.drop_zero, htake]
    have hav : attachedOf ('-' :: c :: cs) (some (q + 1)) =
        [((c :: cs).dropWhile (· != '=')).tail] := by
      simp only [attachedOf]
      rw [List.drop_succ_cons, hdrop]
    have htok : tokenizeArg ('-' :: c :: cs) =
        (((c :: cs).takeWhile (· != '=')).map (fun ch => [ch]) ++
           [((c :: cs).dropWhile (· != '=')).tail],
         List.replicate ((c :: cs).takeWhile (· != '=')).length
             token_kind_t.flag ++ [token_kind_t.arg]) := by
      simp only [tokenizeArg, hp, h1]
      rw [if_neg (by simp [hc])]
      rw [hsf, hav]
      simp [List.map_map, map_comp_const_replicate]
    simp only [semantic_tokenize, if_neg hcond, if_neg ht]
    rw [htok]
    simp

/-- Witness for C6_short_form_expansion. -/
theorem C6_short_form_expansion_witness :
    semantic_tokenize ['-' :: 'a' :: ['b', 'c']] =
      ((('a' :: ['b', 'c']).map (fun ch => [ch])),
       List.replicate ('a' :: ['b', 'c'] : List Char).length
         token_kind_t.flag) :=
  C6_short_form_expansion.1 'a' ['b', 'c'] (by decide) (by decide)

/-! ## Claim C10 -/

/-- Claim C10: registration stores flag names with their leading marker(s)
stripped — whatever name a successful vflag call stores, prepending one
marker (short form, exactly one character) or two markers (long form)
reproduces the registered spelling — and parse-time lookup compares only
these stripped names against the tokenizer's marker-stripped flag tokens,
so the spellings `-v` and `--v` are interchangeable: a flag registered as
`-v` is matched by the command line `--v` and one registered as `--v` by
`-v`. -/
theorem C10_marker_stripped_names :
    (∀ (reg : List flag_info_t) (name help : List Char) (pa : parse_arg_t)
       (stored : List Char),
      invalid_name name = false →
      vflag reg name help pa = Except.ok (reg ++ [⟨stored, help, pa⟩]) →
      ((name = '-' :: stored ∧ stored.length = 1) ∨
       (name = '-' :: '-' :: stored ∧ 1 ≤ stored.length))) ∧
    (vflag [] (str "-v") [] (parse_arg_t.pBool false)).map
        (fun r => parse r [str "--v"]) =
      Except.ok (some (Except.ok
        ([], [⟨str "v", [], parse_arg_t.pBool true⟩]))) ∧
    (vflag [] (str "--v") [] (parse_arg_t.pBool false)).map
        (fun r => parse r [str "-v"]) =
      Except.ok (some (Except.ok
        ([], [⟨str "v", [], parse_arg_t.pBool true⟩]))) := by
  refine ⟨?_, by decide, by decide⟩
  intro reg name help pa stored hval hv
  simp [vflag, hval, unguarded_vflag] at hv
  simp [invalid_name] at hval
  obtain ⟨⟨⟨⟨hhead, hlen2⟩, hne2⟩, hne1⟩, -⟩ := hval
  rcases name with _ | ⟨c0, rest⟩
  · simp at hhead
  · simp only [List.head?_cons, Option.some.injEq] at hhead
    subst hhead
    rcases rest with _ | ⟨c1, rest2⟩
    · exact absurd (by decide : ('-' :: ([] : List Char)) = str "-") hne1
    · by_cases hc1 : c1 = '-'
      · subst hc1
        simp at hv
        subst hv
        right
        refine ⟨rfl, ?_⟩
        rcases rest2 with _ | ⟨x, xs⟩
        · exact absurd (by decide : ('-' :: '-' :: ([] : List Char)) = str "--")
            hne2
        · simp
      · simp [hc1] at hv
        subst hv
        left
        have hrest2 : rest2 = [] := by
          rcases rest2 with _ | ⟨x, xs⟩
          · rfl
          · exfalso
            have h2 := hlen2 (by simp [List.length_cons])
            simp at h2
            exact hc1 h2
        subst hrest2
        exact ⟨rfl, rfl⟩

/-- Witness for C10_marker_stripped_names. -/
theorem C10_marker_stripped_names_witness :
    (str "-v" = '-' :: str "v" ∧ (str "v").length = 1) ∨
    (str "-v" = '-' :: '-' :: str "v" ∧ 1 ≤ (str "v").length) :=
  C10_marker_stripped_names.1 [] (str "-v") [] (parse_arg_t.pBool false)
    (str "v") (by decide) (by decide)

end Cozy
